import Mathlib

/-!
Shallow embedding of the narrow-phase contact solving and contact query core
of the Avian physics engine (2D feature path, exact rational arithmetic).

Solver side: `src/dynamics/solver/contact/mod.rs` (`ContactConstraint` with
`warm_start`, `solve`, `apply_restitution`, `tangent_directions`).
Geometry side: `src/collision/collider/parry/contact_query.rs`
(`contact`, `contact_manifolds`).

External collaborators (the `parry` query dispatcher and the `glam`
vector `normalize` function) are passed in as explicit parameters, so the
theorems quantify over their possible outputs.  The submodules
`normal_part.rs`, `tangent_part.rs` and `solver_body.rs` are not part of
the sampled sources; the corresponding definitions are modelled from the
specification and are marked as such in their doc comments.
-/

namespace Avian

/-- A 2D vector with exact rational components, standing in for the `Vector`
(`glam::Vec2`) type used by the 2D feature path of the engine. -/
structure Vec2 where
  x : ℚ
  y : ℚ
deriving DecidableEq, Repr

/-- Componentwise vector addition. -/
def Vec2.add (a b : Vec2) : Vec2 := ⟨a.x + b.x, a.y + b.y⟩

/-- Componentwise vector negation. -/
def Vec2.neg (a : Vec2) : Vec2 := ⟨-a.x, -a.y⟩

/-- Componentwise vector subtraction. -/
def Vec2.sub (a b : Vec2) : Vec2 := ⟨a.x - b.x, a.y - b.y⟩

/-- Scalar multiplication of a vector. -/
def Vec2.smul (k : ℚ) (a : Vec2) : Vec2 := ⟨k * a.x, k * a.y⟩

instance : Zero Vec2 := ⟨⟨0, 0⟩⟩
instance : Add Vec2 := ⟨Vec2.add⟩
instance : Neg Vec2 := ⟨Vec2.neg⟩
instance : Sub Vec2 := ⟨Vec2.sub⟩
instance : SMul ℚ Vec2 := ⟨Vec2.smul⟩

/-- Dot product of 2D vectors (`Vector::dot`). -/
def Vec2.dot (a b : Vec2) : ℚ := a.x * b.x + a.y * b.y

/-- The 2D cross product (`cross(a, b)` in the 2D feature path), a scalar. -/
def Vec2.cross (a b : Vec2) : ℚ := a.x * b.y - a.y * b.x

/-- Counterclockwise perpendicular (`Vector::perp`). -/
def Vec2.perp (a : Vec2) : Vec2 := ⟨-a.y, a.x⟩

/-- Squared Euclidean norm (`Vector::length_squared`). -/
def Vec2.normSq (a : Vec2) : ℚ := a.x * a.x + a.y * a.y

/-- Exact-arithmetic idealization of `Vector::is_normalized`: the squared
norm equals one instead of lying within a floating-point tolerance of one. -/
def Vec2.isNormalized (a : Vec2) : Prop := a.normSq = 1

instance (a : Vec2) : Decidable a.isNormalized := by
  unfold Vec2.isNormalized; infer_instance

/-- A 2D rotation (`Rotation { cos, sin }` in the 2D feature path), stored as
the cosine and sine of the rotation angle. -/
structure Rot where
  cos : ℚ
  sin : ℚ
deriving DecidableEq, Repr

/-- Applying a rotation to a vector (`Rotation::mul`). -/
def Rot.apply (r : Rot) (v : Vec2) : Vec2 :=
  ⟨r.cos * v.x - r.sin * v.y, r.sin * v.x + r.cos * v.y⟩

/-- `Rotation::inverse`: negate the sine. -/
def Rot.inverse (r : Rot) : Rot := ⟨r.cos, -r.sin⟩

/-- The identity rotation (`Rotation::IDENTITY`). -/
def Rot.id : Rot := ⟨1, 0⟩

/-- Modelled from the spec: `SolverBody` (`solver_body.rs` is not among the
sampled sources).  Per-body integration state: accumulated delta position,
delta rotation, linear velocity and angular velocity. -/
structure SolverBody where
  linear_velocity : Vec2
  angular_velocity : ℚ
  delta_position : Vec2
  delta_rotation : Rot
deriving DecidableEq, Repr

/-- Modelled from the spec: the velocity of a solver body at a point `r`
relative to its center of mass, `linear_velocity + angular_velocity × r`
(in 2D the angular term is `angular_velocity * perp r`). -/
def SolverBody.velocity_at_point (b : SolverBody) (r : Vec2) : Vec2 :=
  b.linear_velocity + b.angular_velocity • r.perp

/-- Modelled from the spec: `SolverBodyInertia` (`solver_body.rs` is not among
the sampled sources).  Derived effective inverse mass and effective inverse
angular inertia that already account for dominance: an infinite-mass (fully
dominant) body stores exactly zero for both. -/
structure SolverBodyInertia where
  inv_mass : ℚ
  inv_angular_inertia : ℚ
deriving DecidableEq, Repr

/-- Modelled from the spec: `SolverBodyInertia::effective_inv_mass`. -/
def SolverBodyInertia.effective_inv_mass (i : SolverBodyInertia) : ℚ :=
  i.inv_mass

/-- Modelled from the spec: `SolverBodyInertia::effective_inv_angular_inertia`. -/
def SolverBodyInertia.effective_inv_angular_inertia (i : SolverBodyInertia) : ℚ :=
  i.inv_angular_inertia

/-- Modelled from the spec: `ContactNormalPart` (`normal_part.rs` is not among
the sampled sources).  Normal-impulse accumulator state: the accumulated
normal impulse of the current substep, the total impulse across the step,
and the effective mass of the normal constraint. -/
structure ContactNormalPart where
  impulse : ℚ
  total_impulse : ℚ
  effective_mass : ℚ
deriving DecidableEq, Repr

/-- Modelled from the spec: `ContactNormalPart::solve_impulse`.  Computes the
incremental normal impulse from the relative normal velocity plus a bias term
(present when `use_bias` is set, derived from the current separation and
capped by `max_overlap_solve_speed` to avoid injecting energy from deep
overlaps), accumulates it with the non-negativity clamp `impulse >= 0`, and
returns the updated part together with the incremental impulse magnitude. -/
def ContactNormalPart.solve_impulse (part : ContactNormalPart)
    (separation : ℚ) (relative_velocity normal : Vec2)
    (use_bias : Bool) (max_overlap_solve_speed delta_secs : ℚ) :
    ContactNormalPart × ℚ :=
  let vn := relative_velocity.dot normal
  let bias : ℚ :=
    if use_bias then max (separation / delta_secs) (-max_overlap_solve_speed)
    else 0
  let raw := -part.effective_mass * (vn + bias)
  let new_impulse := max (part.impulse + raw) 0
  let delta := new_impulse - part.impulse
  (⟨new_impulse, part.total_impulse + delta, part.effective_mass⟩, delta)

/-- Modelled from the spec: `ContactTangentPart` (`tangent_part.rs` is not
among the sampled sources).  Tangential friction impulse accumulator state
(one tangent direction in the 2D feature path). -/
structure ContactTangentPart where
  impulse : ℚ
  effective_mass : ℚ
deriving DecidableEq, Repr

/-- Modelled from the spec: `ContactTangentPart::solve_impulse`.  Projects the
relative velocity onto the tangent direction, subtracts the configured
conveyor-belt tangential target (`tangent_speed` in 2D), accumulates the
incremental impulse, clamps the accumulated tangent impulse magnitude to
`friction * normal_impulse` (the friction cone), and returns the updated part
together with the incremental impulse vector. -/
def ContactTangentPart.solve_impulse (part : ContactTangentPart)
    (tangent_direction relative_velocity : Vec2)
    (tangent_speed friction normal_impulse : ℚ) :
    ContactTangentPart × Vec2 :=
  let vt := relative_velocity.dot tangent_direction - tangent_speed
  let raw := -part.effective_mass * vt
  let max_impulse := friction * normal_impulse
  let new_impulse := min (max (part.impulse + raw) (-max_impulse)) max_impulse
  let delta := new_impulse - part.impulse
  (⟨new_impulse, part.effective_mass⟩, delta • tangent_direction)

/-- `ContactConstraintPoint`: data for solving a single contact point of a
`ContactConstraint` (translated from `mod.rs`).  `tangent_part` is `none`
if the coefficient of friction is zero. -/
structure ContactConstraintPoint where
  normal_part : ContactNormalPart
  tangent_part : Option ContactTangentPart
  anchor1 : Vec2
  anchor2 : Vec2
  normal_speed : ℚ
  initial_separation : ℚ
deriving DecidableEq, Repr

/-- `ContactConstraint` (translated from `mod.rs`): a contact constraint for
resolving inter-penetration between two bodies.  The entity handles and the
contact/manifold identifiers are bookkeeping not used by the solve methods
and are omitted; `relative_dominance` is kept for fidelity though the solve
methods do not read it (dominance is baked into the effective inertia). -/
structure ContactConstraint where
  relative_dominance : ℤ
  friction : ℚ
  restitution : ℚ
  tangent_speed : ℚ
  normal : Vec2
  points : List ContactConstraintPoint
deriving DecidableEq, Repr

/-- `ContactConstraint::tangent_directions` in the 2D feature path:
the single tangent direction `(normal.y, -normal.x)`; the velocity
arguments are unused in 2D. -/
def ContactConstraint.tangent_directions (c : ContactConstraint)
    (velocity1 velocity2 : Vec2) : Vec2 :=
  let _ := velocity1
  let _ := velocity2
  ⟨c.normal.y, -c.normal.x⟩

/-- The loop body of `ContactConstraint::warm_start` for one contact point:
accumulate the warm-start impulse from the stored normal and tangent impulses
and apply it to both bodies (body1 subtracting, body2 adding). -/
def warmStartStep (normal tangent_direction : Vec2)
    (warm_start_coefficient inv_mass1 inv_mass2
      inv_angular_inertia1 inv_angular_inertia2 : ℚ)
    (point : ContactConstraintPoint) (body1 body2 : SolverBody) :
    SolverBody × SolverBody :=
  let r1 := point.anchor1
  let r2 := point.anchor2
  let tangent_impulse := (point.tangent_part.map fun part => part.impulse).getD 0
  let p := warm_start_coefficient •
    (point.normal_part.impulse • normal + tangent_impulse • tangent_direction)
  let body1' := { body1 with
    linear_velocity := body1.linear_velocity - inv_mass1 • p
    angular_velocity :=
      body1.angular_velocity - inv_angular_inertia1 * r1.cross p }
  let body2' := { body2 with
    linear_velocity := body2.linear_velocity + inv_mass2 • p
    angular_velocity :=
      body2.angular_velocity + inv_angular_inertia2 * r2.cross p }
  (body1', body2')

/-- The point loop of `ContactConstraint::warm_start`. -/
def warmStartLoop (normal tangent_direction : Vec2)
    (warm_start_coefficient inv_mass1 inv_mass2
      inv_angular_inertia1 inv_angular_inertia2 : ℚ)
    (points : List ContactConstraintPoint) (body1 body2 : SolverBody) :
    SolverBody × SolverBody :=
  match points with
  | [] => (body1, body2)
  | point :: rest =>
    let (body1', body2') := warmStartStep normal tangent_direction
      warm_start_coefficient inv_mass1 inv_mass2
      inv_angular_inertia1 inv_angular_inertia2 point body1 body2
    warmStartLoop normal tangent_direction warm_start_coefficient
      inv_mass1 inv_mass2 inv_angular_inertia1 inv_angular_inertia2
      rest body1' body2'

/-- `ContactConstraint::warm_start`: apply the impulses from the previous
frame or substep, scaled by the warm-start coefficient. -/
def ContactConstraint.warm_start (c : ContactConstraint)
    (body1 body2 : SolverBody) (inertia1 inertia2 : SolverBodyInertia)
    (normal tangent_direction : Vec2) (warm_start_coefficient : ℚ) :
    SolverBody × SolverBody :=
  let inv_mass1 := inertia1.effective_inv_mass
  let inv_mass2 := inertia2.effective_inv_mass
  let inv_angular_inertia1 := inertia1.effective_inv_angular_inertia
  let inv_angular_inertia2 := inertia2.effective_inv_angular_inertia
  warmStartLoop normal tangent_direction warm_start_coefficient
    inv_mass1 inv_mass2 inv_angular_inertia1 inv_angular_inertia2
    c.points body1 body2

/-- The body of the first (normal impulse) loop of `ContactConstraint::solve`
for one contact point: recompute the current separation from the accumulated
delta translation/rotation and the fixed local anchors, compute the relative
velocity at the fixed anchors, delegate accumulation and clamping to the
normal part, and apply the resulting impulse to both bodies. -/
def normalStep (normal : Vec2) (use_bias : Bool)
    (max_overlap_solve_speed delta_secs : ℚ)
    (delta_translation : Vec2)
    (inv_mass1 inv_mass2 inv_angular_inertia1 inv_angular_inertia2 : ℚ)
    (point : ContactConstraintPoint) (body1 body2 : SolverBody) :
    ContactConstraintPoint × SolverBody × SolverBody :=
  let r1 := body1.delta_rotation.apply point.anchor1
  let r2 := body2.delta_rotation.apply point.anchor2
  let delta_separation := delta_translation + (r2 - r1)
  let separation := delta_separation.dot normal + point.initial_separation
  -- Fixed anchors
  let r1 := point.anchor1
  let r2 := point.anchor2
  let relative_velocity :=
    body2.velocity_at_point r2 - body1.velocity_at_point r1
  let (normal_part', impulse_magnitude) := point.normal_part.solve_impulse
    separation relative_velocity normal use_bias max_overlap_solve_speed
    delta_secs
  let impulse := impulse_magnitude • normal
  let body1' := { body1 with
    linear_velocity := body1.linear_velocity - inv_mass1 • impulse
    angular_velocity :=
      body1.angular_velocity - inv_angular_inertia1 * r1.cross impulse }
  let body2' := { body2 with
    linear_velocity := body2.linear_velocity + inv_mass2 • impulse
    angular_velocity :=
      body2.angular_velocity + inv_angular_inertia2 * r2.cross impulse }
  ({ point with normal_part := normal_part' }, body1', body2')

/-- The first (normal impulse) loop of `ContactConstraint::solve`. -/
def normalLoop (normal : Vec2) (use_bias : Bool)
    (max_overlap_solve_speed delta_secs : ℚ)
    (delta_translation : Vec2)
    (inv_mass1 inv_mass2 inv_angular_inertia1 inv_angular_inertia2 : ℚ)
    (points : List ContactConstraintPoint) (body1 body2 : SolverBody) :
    List ContactConstraintPoint × SolverBody × SolverBody :=
  match points with
  | [] => ([], body1, body2)
  | point :: rest =>
    let (point', body1', body2') := normalStep normal use_bias
      max_overlap_solve_speed delta_secs delta_translation
      inv_mass1 inv_mass2 inv_angular_inertia1 inv_angular_inertia2
      point body1 body2
    let (rest', body1'', body2'') := normalLoop normal use_bias
      max_overlap_solve_speed delta_secs delta_translation
      inv_mass1 inv_mass2 inv_angular_inertia1 inv_angular_inertia2
      rest body1' body2'
    (point' :: rest', body1'', body2'')

/-- The body of the second (friction) loop of `ContactConstraint::solve` for
one contact point: skip the point when it has no tangent part, otherwise
recompute the relative velocity at the fixed anchors, delegate accumulation
and friction-cone clamping to the tangent part (passing the point's current
accumulated normal impulse as the cone bound), and apply the resulting
impulse to both bodies. -/
def frictionStep (tangent_direction : Vec2) (tangent_speed friction : ℚ)
    (inv_mass1 inv_mass2 inv_angular_inertia1 inv_angular_inertia2 : ℚ)
    (point : ContactConstraintPoint) (body1 body2 : SolverBody) :
    ContactConstraintPoint × SolverBody × SolverBody :=
  match point.tangent_part with
  | none => (point, body1, body2)
  | some friction_part =>
    -- Fixed anchors
    let r1 := point.anchor1
    let r2 := point.anchor2
    let relative_velocity :=
      body2.velocity_at_point r2 - body1.velocity_at_point r1
    let (friction_part', impulse) := friction_part.solve_impulse
      tangent_direction relative_velocity tangent_speed friction
      point.normal_part.impulse
    let body1' := { body1 with
      linear_velocity := body1.linear_velocity - inv_mass1 • impulse
      angular_velocity :=
        body1.angular_velocity - inv_angular_inertia1 * r1.cross impulse }
    let body2' := { body2 with
      linear_velocity := body2.linear_velocity + inv_mass2 • impulse
      angular_velocity :=
        body2.angular_velocity + inv_angular_inertia2 * r2.cross impulse }
    ({ point with tangent_part := some friction_part' }, body1', body2')

/-- The second (friction) loop of `ContactConstraint::solve`. -/
def frictionLoop (tangent_direction : Vec2) (tangent_speed friction : ℚ)
    (inv_mass1 inv_mass2 inv_angular_inertia1 inv_angular_inertia2 : ℚ)
    (points : List ContactConstraintPoint) (body1 body2 : SolverBody) :
    List ContactConstraintPoint × SolverBody × SolverBody :=
  match points with
  | [] => ([], body1, body2)
  | point :: rest =>
    let (point', body1', body2') := frictionStep tangent_direction
      tangent_speed friction inv_mass1 inv_mass2
      inv_angular_inertia1 inv_angular_inertia2 point body1 body2
    let (rest', body1'', body2'') := frictionLoop tangent_direction
      tangent_speed friction inv_mass1 inv_mass2
      inv_angular_inertia1 inv_angular_inertia2 rest body1' body2'
    (point' :: rest', body1'', body2'')

/-- `ContactConstraint::solve`: solve all normal impulses first (applying
them to the bodies' velocities), then compute the tangent directions from
the updated velocities, then solve the friction impulses; returns the
updated constraint points and bodies. -/
def ContactConstraint.solve (c : ContactConstraint)
    (body1 body2 : SolverBody) (inertia1 inertia2 : SolverBodyInertia)
    (delta_secs : ℚ) (use_bias : Bool) (max_overlap_solve_speed : ℚ) :
    List ContactConstraintPoint × SolverBody × SolverBody :=
  let inv_mass1 := inertia1.effective_inv_mass
  let inv_mass2 := inertia2.effective_inv_mass
  let inv_angular_inertia1 := inertia1.effective_inv_angular_inertia
  let inv_angular_inertia2 := inertia2.effective_inv_angular_inertia
  let delta_translation := body2.delta_position - body1.delta_position
  let (points', body1', body2') := normalLoop c.normal use_bias
    max_overlap_solve_speed delta_secs delta_translation
    inv_mass1 inv_mass2 inv_angular_inertia1 inv_angular_inertia2
    c.points body1 body2
  let tangent_direction :=
    c.tangent_directions body1'.linear_velocity body2'.linear_velocity
  frictionLoop tangent_direction c.tangent_speed c.friction
    inv_mass1 inv_mass2 inv_angular_inertia1 inv_angular_inertia2
    points' body1' body2'

/-- The loop body of `ContactConstraint::apply_restitution` for one contact
point: skip points whose pre-solve normal speed is above `-threshold` or
whose total accumulated normal impulse is zero; otherwise compute the
incremental restitution impulse, clamp the accumulated impulse to be
non-negative, and apply the clamped increment to both bodies. -/
def restitutionStep (normal : Vec2) (restitution threshold : ℚ)
    (inv_mass1 inv_mass2 inv_angular_inertia1 inv_angular_inertia2 : ℚ)
    (point : ContactConstraintPoint) (body1 body2 : SolverBody) :
    ContactConstraintPoint × SolverBody × SolverBody :=
  if point.normal_speed > -threshold ∨ point.normal_part.total_impulse = 0 then
    (point, body1, body2)
  else
    -- Fixed anchors
    let r1 := point.anchor1
    let r2 := point.anchor2
    let relative_velocity :=
      body2.velocity_at_point r2 - body1.velocity_at_point r1
    let normal_speed := relative_velocity.dot normal
    let impulse := -point.normal_part.effective_mass *
      (normal_speed + restitution * point.normal_speed)
    -- Clamp the accumulated impulse.
    let new_impulse := max (point.normal_part.impulse + impulse) 0
    let impulse := new_impulse - point.normal_part.impulse
    let normal_part' : ContactNormalPart :=
      ⟨new_impulse, point.normal_part.total_impulse + impulse,
        point.normal_part.effective_mass⟩
    let impulse_vec := impulse • normal
    let body1' := { body1 with
      linear_velocity := body1.linear_velocity - inv_mass1 • impulse_vec
      angular_velocity :=
        body1.angular_velocity - inv_angular_inertia1 * r1.cross impulse_vec }
    let body2' := { body2 with
      linear_velocity := body2.linear_velocity + inv_mass2 • impulse_vec
      angular_velocity :=
        body2.angular_velocity + inv_angular_inertia2 * r2.cross impulse_vec }
    ({ point with normal_part := normal_part' }, body1', body2')

/-- The point loop of `ContactConstraint::apply_restitution`. -/
def restitutionLoop (normal : Vec2) (restitution threshold : ℚ)
    (inv_mass1 inv_mass2 inv_angular_inertia1 inv_angular_inertia2 : ℚ)
    (points : List ContactConstraintPoint) (body1 body2 : SolverBody) :
    List ContactConstraintPoint × SolverBody × SolverBody :=
  match points with
  | [] => ([], body1, body2)
  | point :: rest =>
    let (point', body1', body2') := restitutionStep normal restitution
      threshold inv_mass1 inv_mass2 inv_angular_inertia1
      inv_angular_inertia2 point body1 body2
    let (rest', body1'', body2'') := restitutionLoop normal restitution
      threshold inv_mass1 inv_mass2 inv_angular_inertia1
      inv_angular_inertia2 rest body1' body2'
    (point' :: rest', body1'', body2'')

/-- `ContactConstraint::apply_restitution`: apply restitution for points
whose pre-solve relative normal speed exceeds the threshold (and that
carried a non-zero total impulse). -/
def ContactConstraint.apply_restitution (c : ContactConstraint)
    (body1 body2 : SolverBody) (inertia1 inertia2 : SolverBodyInertia)
    (threshold : ℚ) :
    List ContactConstraintPoint × SolverBody × SolverBody :=
  let inv_mass1 := inertia1.effective_inv_mass
  let inv_mass2 := inertia2.effective_inv_mass
  let inv_angular_inertia1 := inertia1.effective_inv_angular_inertia
  let inv_angular_inertia2 := inertia2.effective_inv_angular_inertia
  restitutionLoop c.normal c.restitution threshold
    inv_mass1 inv_mass2 inv_angular_inertia1 inv_angular_inertia2
    c.points body1 body2

/-! Geometry queries (`contact_query.rs`).  The `parry` dispatcher and the
`glam` `normalize` function are external collaborators; their outputs and
behaviour are passed in as explicit parameters. -/

/-- The contact data produced by the external `parry::query::contact` call
(or by `contact_support_map_support_map` for the fallback path): world/query
frame points and normals plus the signed distance (negative = penetrating). -/
structure PContact where
  point1 : Vec2
  point2 : Vec2
  normal1 : Vec2
  normal2 : Vec2
  dist : ℚ
deriving DecidableEq, Repr

/-- `SingleContact` as stored by this engine: local-space points and normals
plus the penetration depth (positive = penetrating). -/
structure SingleContact where
  point1 : Vec2
  point2 : Vec2
  normal1 : Vec2
  normal2 : Vec2
  penetration : ℚ
deriving DecidableEq, Repr

/-- `UnsupportedShape` errors carry no data. -/
abbrev QueryError := Unit

/-- `contact` from `contact_query.rs`: run the external `parry` contact query
(its result is the parameter `parry_result`), and on success transform the
contact data into each body's local frame, renormalizing the rotated normals
with the external `normalizeFn` and returning `none` when a renormalized
normal still fails the unit-length check.  The penetration depth is stored
as `-dist`. -/
def contact (rotation1 rotation2 : Rot) (normalizeFn : Vec2 → Vec2)
    (parry_result : Except QueryError (Option PContact)) :
    Except QueryError (Option SingleContact) :=
  parry_result.map fun c => match c with
    | some c =>
      -- Transform contact data into local space
      let point1 := rotation1.inverse.apply c.point1
      let point2 := rotation2.inverse.apply c.point2
      let normal1 := normalizeFn (rotation1.inverse.apply c.normal1)
      let normal2 := normalizeFn (rotation2.inverse.apply c.normal2)
      -- Make sure the normals are valid
      if ¬ normal1.isNormalized ∨ ¬ normal2.isNormalized then
        none
      else
        some ⟨point1, point2, normal1, normal2, -c.dist⟩
    | none => none

/-- A contact point as stored in a `ContactManifold`: local-space points on
each body, penetration depth (positive = penetrating), and the feature
identifiers used for persistence across frames (zero when unset). -/
structure ContactPoint where
  point1 : Vec2
  point2 : Vec2
  penetration : ℚ
  feature_id1 : ℕ
  feature_id2 : ℕ
deriving DecidableEq, Repr

/-- `ContactManifold`: contact points sharing one normal. -/
structure ContactManifold where
  points : List ContactPoint
  normal : Vec2
deriving DecidableEq, Repr

/-- An isometry (`Isometry`) of the query frame, used for the sub-shape
positions of composite shapes in `parry` manifolds. -/
structure Iso2 where
  rotation : Rot
  translation : Vec2
deriving DecidableEq, Repr

/-- The identity isometry, the default sub-shape position. -/
def Iso2.id : Iso2 := ⟨Rot.id, 0⟩

/-- `Isometry::transform_point`. -/
def Iso2.transform_point (iso : Iso2) (p : Vec2) : Vec2 :=
  iso.rotation.apply p + iso.translation

/-- A contact inside a `parry` contact manifold: sub-shape-local points,
signed distance, and feature identifiers. -/
structure PManifoldContact where
  local_p1 : Vec2
  local_p2 : Vec2
  dist : ℚ
  fid1 : ℕ
  fid2 : ℕ
deriving DecidableEq, Repr

/-- A contact manifold produced by the external `parry` dispatcher:
contacts, the manifold-local normal on the first shape, and the optional
sub-shape positions for composite shapes. -/
structure PManifold where
  contacts : List PManifoldContact
  local_n1 : Vec2
  subshape_pos1 : Option Iso2
  subshape_pos2 : Option Iso2
deriving DecidableEq, Repr

/-- Processing of one `parry` manifold in `contact_manifolds`: skip empty
manifolds, rotate the manifold-local normal by the sub-shape rotation and
renormalize it, rotate by the body rotation, drop the manifold if the
resulting normal fails the unit-length check, and otherwise transform each
contact point by the sub-shape positions, storing `-dist` as penetration
together with the feature identifiers. -/
def processManifold (rotation1 : Rot) (normalizeFn : Vec2 → Vec2)
    (manifold : PManifold) : Option ContactManifold :=
  -- Skip empty manifolds.
  if manifold.contacts.isEmpty then
    none
  else
    let subpos1 := manifold.subshape_pos1.getD Iso2.id
    let subpos2 := manifold.subshape_pos2.getD Iso2.id
    let local_normal := normalizeFn (subpos1.rotation.apply manifold.local_n1)
    let normal := rotation1.apply local_normal
    -- Make sure the normal is valid
    if ¬ normal.isNormalized then
      none
    else
      let points := manifold.contacts.map fun c =>
        (⟨subpos1.transform_point c.local_p1, subpos2.transform_point c.local_p2,
          -c.dist, c.fid1, c.fid2⟩ : ContactPoint)
      some ⟨points, normal⟩

/-- `contact_manifolds` from `contact_query.rs`.  The external `parry`
dispatcher call is summarized by the parameters `dispatch_result` (its
`Result<(), Unsupported>`) and `new_manifolds` (the buffer it filled); the
availability of support maps for the two scaled shapes by `sm1`/`sm2`; and
the result of the external `contact_support_map_support_map` call by
`sm_contact`.  The caller-owned output buffer is cleared, so the return
value is the full new contents of the buffer: when dispatch failed and both
shapes expose a support map and the support-map query found a contact, a
single-point fallback manifold is pushed (unless its rotated normal fails
the unit-length check, in which case the function returns early, leaving
the buffer empty); then the dispatcher's manifolds are appended, dropping
empty ones and ones with an invalid normal. -/
def contact_manifolds (rotation1 : Rot) (normalizeFn : Vec2 → Vec2)
    (dispatch_result : Except QueryError Unit) (new_manifolds : List PManifold)
    (sm1 sm2 : Bool) (sm_contact : Option PContact) :
    List ContactManifold :=
  let extended := new_manifolds.filterMap (processManifold rotation1 normalizeFn)
  -- Fall back to support map contacts for unsupported (custom) shapes.
  if dispatch_result.isOk = false ∧ sm1 ∧ sm2 then
    match sm_contact with
    | some c =>
      let normal := rotation1.apply c.normal1
      -- Make sure the normal is valid
      if ¬ normal.isNormalized then
        []
      else
        let points := [(⟨c.point1, c.point2, -c.dist, 0, 0⟩ : ContactPoint)]
        (⟨points, normal⟩ : ContactManifold) :: extended
    | none => extended
  else
    extended

/-- The delta fields of a solver body, the part of the state the contact
solve operations read but never write. -/
def SolverBody.deltas (b : SolverBody) : Vec2 × Rot :=
  (b.delta_position, b.delta_rotation)

/-! Concrete example values used to instantiate hypotheses of the theorems
below on small inputs. -/

/-- A solver body at rest with no accumulated deltas. -/
def exBodyRest : SolverBody := ⟨0, 0, 0, Rot.id⟩

/-- Unit effective inverse mass and inverse angular inertia. -/
def exInertiaUnit : SolverBodyInertia := ⟨1, 1⟩

/-- Zero effective inverse mass and inverse angular inertia: an
infinite-mass (fully dominant) body. -/
def exInertiaZero : SolverBodyInertia := ⟨0, 0⟩

/-- A contact point resting exactly at the restitution threshold: pre-solve
normal speed `-1`, zero accumulated impulse, non-zero total impulse. -/
def exPointThreshold : ContactConstraintPoint :=
  ⟨⟨0, 1, 1⟩, none, 0, 0, -1, -1⟩

/-- A contact point with a tangent friction part. -/
def exPointFriction : ContactConstraintPoint :=
  ⟨⟨0, 0, 1⟩, some ⟨0, 1⟩, 0, 0, -1, -1⟩

/-- A one-point frictionless constraint with restitution `1` and normal
`(0, 1)`, used for the restitution examples. -/
def exConstraintRestitution : ContactConstraint :=
  ⟨0, 0, 1, 0, ⟨0, 1⟩, [exPointThreshold]⟩

/-- A one-point constraint with friction coefficient `1/2` and normal
`(0, 1)`, used for the friction-cone examples. -/
def exConstraintFriction : ContactConstraint :=
  ⟨0, 1/2, 0, 0, ⟨0, 1⟩, [exPointFriction]⟩

/-- A `parry` contact whose normals are degenerate (zero vectors). -/
def exPContactDegenerate : PContact := ⟨⟨1, 0⟩, ⟨1, 0⟩, 0, 0, 1/2⟩

/-- A `parry` contact with unit axis-aligned normals and signed distance
`-1/2` (penetrating by `1/2`). -/
def exPContactUnit : PContact := ⟨⟨1, 0⟩, ⟨2, 0⟩, ⟨0, 1⟩, ⟨0, -1⟩, -1/2⟩

/-- A `parry` manifold holding a single contact with signed distance `-1/4`
and a unit normal, with no sub-shape positions. -/
def exPManifold : PManifold :=
  ⟨[⟨⟨1, 0⟩, ⟨1, 1⟩, -1/4, 3, 4⟩], ⟨1, 0⟩, none, none⟩

/-- A `parry` manifold whose manifold-local normal is degenerate (zero). -/
def exPManifoldDegenerate : PManifold :=
  ⟨[⟨⟨1, 0⟩, ⟨1, 1⟩, -1/4, 3, 4⟩], 0, none, none⟩

/-- The engine manifold that `exPManifold` is processed into. -/
def exManifoldOut : ContactManifold :=
  ⟨[⟨⟨1, 0⟩, ⟨1, 1⟩, 1/4, 3, 4⟩], ⟨1, 0⟩⟩

/-! Helper lemmas for the vector algebra. -/

@[simp]
theorem Vec2.zero_def : (0 : Vec2) = ⟨0, 0⟩ := rfl

@[simp]
theorem Vec2.add_def (a b : Vec2) : a + b = ⟨a.x + b.x, a.y + b.y⟩ := rfl

@[simp]
theorem Vec2.sub_def (a b : Vec2) : a - b = ⟨a.x - b.x, a.y - b.y⟩ := rfl

@[simp]
theorem Vec2.neg_def (a : Vec2) : -a = ⟨-a.x, -a.y⟩ := rfl

@[simp]
theorem Vec2.smul_def (k : ℚ) (a : Vec2) : k • a = ⟨k * a.x, k * a.y⟩ := rfl

@[simp]
theorem Vec2.eta (a : Vec2) : (⟨a.x, a.y⟩ : Vec2) = a := rfl

@[simp]
theorem Vec2.x_zero : (0 : Vec2).x = 0 := rfl

@[simp]
theorem Vec2.y_zero : (0 : Vec2).y = 0 := rfl

/-! Helper lemmas: structural immunity of a body with zero effective inverse
mass and zero effective inverse angular inertia, for each solver loop. -/

theorem warmStartStep_fst_zero (n t : Vec2) (w im2 ii2 : ℚ)
    (pt : ContactConstraintPoint) (b1 b2 : SolverBody) :
    (warmStartStep n t w 0 im2 0 ii2 pt b1 b2).1 = b1 := by
  obtain ⟨⟨lx, ly⟩, av, dp, dr⟩ := b1
  simp [warmStartStep]

theorem warmStartStep_snd_zero (n t : Vec2) (w im1 ii1 : ℚ)
    (pt : ContactConstraintPoint) (b1 b2 : SolverBody) :
    (warmStartStep n t w im1 0 ii1 0 pt b1 b2).2 = b2 := by
  obtain ⟨⟨lx, ly⟩, av, dp, dr⟩ := b2
  simp [warmStartStep]

theorem warmStartLoop_fst_zero (n t : Vec2) (w im2 ii2 : ℚ)
    (ps : List ContactConstraintPoint) (b1 b2 : SolverBody) :
    (warmStartLoop n t w 0 im2 0 ii2 ps b1 b2).1 = b1 := by
  induction ps generalizing b1 b2 with
  | nil => rfl
  | cons pt rest ih =>
    simp only [warmStartLoop, warmStartStep_fst_zero]
    exact ih _ _

theorem warmStartLoop_snd_zero (n t : Vec2) (w im1 ii1 : ℚ)
    (ps : List ContactConstraintPoint) (b1 b2 : SolverBody) :
    (warmStartLoop n t w im1 0 ii1 0 ps b1 b2).2 = b2 := by
  induction ps generalizing b1 b2 with
  | nil => rfl
  | cons pt rest ih =>
    simp only [warmStartLoop, warmStartStep_snd_zero]
    exact ih _ _

theorem normalStep_body1_zero (n : Vec2) (ub : Bool) (ms h : ℚ) (dt : Vec2)
    (im2 ii2 : ℚ) (pt : ContactConstraintPoint) (b1 b2 : SolverBody) :
    (normalStep n ub ms h dt 0 im2 0 ii2 pt b1 b2).2.1 = b1 := by
  obtain ⟨⟨lx, ly⟩, av, dp, dr⟩ := b1
  simp [normalStep]

theorem normalStep_body2_zero (n : Vec2) (ub : Bool) (ms h : ℚ) (dt : Vec2)
    (im1 ii1 : ℚ) (pt : ContactConstraintPoint) (b1 b2 : SolverBody) :
    (normalStep n ub ms h dt im1 0 ii1 0 pt b1 b2).2.2 = b2 := by
  obtain ⟨⟨lx, ly⟩, av, dp, dr⟩ := b2
  simp [normalStep]

theorem normalLoop_body1_zero (n : Vec2) (ub : Bool) (ms h : ℚ) (dt : Vec2)
    (im2 ii2 : ℚ) (ps : List ContactConstraintPoint) (b1 b2 : SolverBody) :
    (normalLoop n ub ms h dt 0 im2 0 ii2 ps b1 b2).2.1 = b1 := by
  induction ps generalizing b1 b2 with
  | nil => rfl
  | cons pt rest ih =>
    simp only [normalLoop, normalStep_body1_zero]
    exact ih _ _

theorem normalLoop_body2_zero (n : Vec2) (ub : Bool) (ms h : ℚ) (dt : Vec2)
    (im1 ii1 : ℚ) (ps : List ContactConstraintPoint) (b1 b2 : SolverBody) :
    (normalLoop n ub ms h dt im1 0 ii1 0 ps b1 b2).2.2 = b2 := by
  induction ps generalizing b1 b2 with
  | nil => rfl
  | cons pt rest ih =>
    simp only [normalLoop, normalStep_body2_zero]
    exact ih _ _

theorem frictionStep_body1_zero (t : Vec2) (ts fr im2 ii2 : ℚ)
    (pt : ContactConstraintPoint) (b1 b2 : SolverBody) :
    (frictionStep t ts fr 0 im2 0 ii2 pt b1 b2).2.1 = b1 := by
  cases hpt : pt.tangent_part with
  | none => simp [frictionStep, hpt]
  | some fp =>
    obtain ⟨⟨lx, ly⟩, av, dp, dr⟩ := b1
    simp [frictionStep, hpt]

theorem frictionStep_body2_zero (t : Vec2) (ts fr im1 ii1 : ℚ)
    (pt : ContactConstraintPoint) (b1 b2 : SolverBody) :
    (frictionStep t ts fr im1 0 ii1 0 pt b1 b2).2.2 = b2 := by
  cases hpt : pt.tangent_part with
  | none => simp [frictionStep, hpt]
  | some fp =>
    obtain ⟨⟨lx, ly⟩, av, dp, dr⟩ := b2
    simp [frictionStep, hpt]

theorem frictionLoop_body1_zero (t : Vec2) (ts fr im2 ii2 : ℚ)
    (ps : List ContactConstraintPoint) (b1 b2 : SolverBody) :
    (frictionLoop t ts fr 0 im2 0 ii2 ps b1 b2).2.1 = b1 := by
  induction ps generalizing b1 b2 with
  | nil => rfl
  | cons pt rest ih =>
    simp only [frictionLoop, frictionStep_body1_zero]
    exact ih _ _

theorem frictionLoop_body2_zero (t : Vec2) (ts fr im1 ii1 : ℚ)
    (ps : List ContactConstraintPoint) (b1 b2 : SolverBody) :
    (frictionLoop t ts fr im1 0 ii1 0 ps b1 b2).2.2 = b2 := by
  induction ps generalizing b1 b2 with
  | nil => rfl
  | cons pt rest ih =>
    simp only [frictionLoop, frictionStep_body2_zero]
    exact ih _ _

theorem restitutionStep_body1_zero (n : Vec2) (re th im2 ii2 : ℚ)
    (pt : ContactConstraintPoint) (b1 b2 : SolverBody) :
    (restitutionStep n re th 0 im2 0 ii2 pt b1 b2).2.1 = b1 := by
  obtain ⟨⟨lx, ly⟩, av, dp, dr⟩ := b1
  unfold restitutionStep
  split
  · rfl
  · simp

theorem restitutionStep_body2_zero (n : Vec2) (re th im1 ii1 : ℚ)
    (pt : ContactConstraintPoint) (b1 b2 : SolverBody) :
    (restitutionStep n re th im1 0 ii1 0 pt b1 b2).2.2 = b2 := by
  obtain ⟨⟨lx, ly⟩, av, dp, dr⟩ := b2
  unfold restitutionStep
  split
  · rfl
  · simp

theorem restitutionLoop_body1_zero (n : Vec2) (re th im2 ii2 : ℚ)
    (ps : List ContactConstraintPoint) (b1 b2 : SolverBody) :
    (restitutionLoop n re th 0 im2 0 ii2 ps b1 b2).2.1 = b1 := by
  induction ps generalizing b1 b2 with
  | nil => rfl
  | cons pt rest ih =>
    simp only [restitutionLoop, restitutionStep_body1_zero]
    exact ih _ _

theorem restitutionLoop_body2_zero (n : Vec2) (re th im1 ii1 : ℚ)
    (ps : List ContactConstraintPoint) (b1 b2 : SolverBody) :
    (restitutionLoop n re th im1 0 ii1 0 ps b1 b2).2.2 = b2 := by
  induction ps generalizing b1 b2 with
  | nil => rfl
  | cons pt rest ih =>
    simp only [restitutionLoop, restitutionStep_body2_zero]
    exact ih _ _

/-! Helper lemmas: the solver loops read but never write the accumulated
`delta_position` and `delta_rotation` of either body. -/

theorem warmStartStep_deltas (n t : Vec2) (w im1 im2 ii1 ii2 : ℚ)
    (pt : ContactConstraintPoint) (b1 b2 : SolverBody) :
    (warmStartStep n t w im1 im2 ii1 ii2 pt b1 b2).1.deltas = b1.deltas ∧
    (warmStartStep n t w im1 im2 ii1 ii2 pt b1 b2).2.deltas = b2.deltas :=
  ⟨rfl, rfl⟩

theorem warmStartLoop_deltas (n t : Vec2) (w im1 im2 ii1 ii2 : ℚ)
    (ps : List ContactConstraintPoint) (b1 b2 : SolverBody) :
    (warmStartLoop n t w im1 im2 ii1 ii2 ps b1 b2).1.deltas = b1.deltas ∧
    (warmStartLoop n t w im1 im2 ii1 ii2 ps b1 b2).2.deltas = b2.deltas := by
  induction ps generalizing b1 b2 with
  | nil => exact ⟨rfl, rfl⟩
  | cons pt rest ih =>
    simp only [warmStartLoop]
    refine ⟨?_, ?_⟩
    · exact ((ih _ _).1).trans (warmStartStep_deltas n t w im1 im2 ii1 ii2 pt b1 b2).1
    · exact ((ih _ _).2).trans (warmStartStep_deltas n t w im1 im2 ii1 ii2 pt b1 b2).2

theorem normalStep_deltas (n : Vec2) (ub : Bool) (ms h : ℚ) (dt : Vec2)
    (im1 im2 ii1 ii2 : ℚ) (pt : ContactConstraintPoint) (b1 b2 : SolverBody) :
    (normalStep n ub ms h dt im1 im2 ii1 ii2 pt b1 b2).2.1.deltas = b1.deltas ∧
    (normalStep n ub ms h dt im1 im2 ii1 ii2 pt b1 b2).2.2.deltas = b2.deltas :=
  ⟨rfl, rfl⟩

theorem normalLoop_deltas (n : Vec2) (ub : Bool) (ms h : ℚ) (dt : Vec2)
    (im1 im2 ii1 ii2 : ℚ) (ps : List ContactConstraintPoint)
    (b1 b2 : SolverBody) :
    (normalLoop n ub ms h dt im1 im2 ii1 ii2 ps b1 b2).2.1.deltas = b1.deltas ∧
    (normalLoop n ub ms h dt im1 im2 ii1 ii2 ps b1 b2).2.2.deltas = b2.deltas := by
  induction ps generalizing b1 b2 with
  | nil => exact ⟨rfl, rfl⟩
  | cons pt rest ih =>
    simp only [normalLoop]
    refine ⟨?_, ?_⟩
    · exact ((ih _ _).1).trans
        (normalStep_deltas n ub ms h dt im1 im2 ii1 ii2 pt b1 b2).1
    · exact ((ih _ _).2).trans
        (normalStep_deltas n ub ms h dt im1 im2 ii1 ii2 pt b1 b2).2

theorem frictionStep_deltas (t : Vec2) (ts fr im1 im2 ii1 ii2 : ℚ)
    (pt : ContactConstraintPoint) (b1 b2 : SolverBody) :
    (frictionStep t ts fr im1 im2 ii1 ii2 pt b1 b2).2.1.deltas = b1.deltas ∧
    (frictionStep t ts fr im1 im2 ii1 ii2 pt b1 b2).2.2.deltas = b2.deltas := by
  cases hpt : pt.tangent_part with
  | none => exact ⟨by simp [frictionStep, hpt], by simp [frictionStep, hpt]⟩
  | some fp => exact ⟨by simp [frictionStep, hpt, SolverBody.deltas],
      by simp [frictionStep, hpt, SolverBody.deltas]⟩

theorem frictionLoop_deltas (t : Vec2) (ts fr im1 im2 ii1 ii2 : ℚ)
    (ps : List ContactConstraintPoint) (b1 b2 : SolverBody) :
    (frictionLoop t ts fr im1 im2 ii1 ii2 ps b1 b2).2.1.deltas = b1.deltas ∧
    (frictionLoop t ts fr im1 im2 ii1 ii2 ps b1 b2).2.2.deltas = b2.deltas := by
  induction ps generalizing b1 b2 with
  | nil => exact ⟨rfl, rfl⟩
  | cons pt rest ih =>
    simp only [frictionLoop]
    refine ⟨?_, ?_⟩
    · exact ((ih _ _).1).trans
        (frictionStep_deltas t ts fr im1 im2 ii1 ii2 pt b1 b2).1
    · exact ((ih _ _).2).trans
        (frictionStep_deltas t ts fr im1 im2 ii1 ii2 pt b1 b2).2

theorem restitutionStep_deltas (n : Vec2) (re th im1 im2 ii1 ii2 : ℚ)
    (pt : ContactConstraintPoint) (b1 b2 : SolverBody) :
    (restitutionStep n re th im1 im2 ii1 ii2 pt b1 b2).2.1.deltas = b1.deltas ∧
    (restitutionStep n re th im1 im2 ii1 ii2 pt b1 b2).2.2.deltas = b2.deltas := by
  unfold restitutionStep
  split
  · exact ⟨rfl, rfl⟩
  · exact ⟨rfl, rfl⟩

theorem restitutionLoop_deltas (n : Vec2) (re th im1 im2 ii1 ii2 : ℚ)
    (ps : List ContactConstraintPoint) (b1 b2 : SolverBody) :
    (restitutionLoop n re th im1 im2 ii1 ii2 ps b1 b2).2.1.deltas = b1.deltas ∧
    (restitutionLoop n re th im1 im2 ii1 ii2 ps b1 b2).2.2.deltas = b2.deltas := by
  induction ps generalizing b1 b2 with
  | nil => exact ⟨rfl, rfl⟩
  | cons pt rest ih =>
    simp only [restitutionLoop]
    refine ⟨?_, ?_⟩
    · exact ((ih _ _).1).trans
        (restitutionStep_deltas n re th im1 im2 ii1 ii2 pt b1 b2).1
    · exact ((ih _ _).2).trans
        (restitutionStep_deltas n re th im1 im2 ii1 ii2 pt b1 b2).2

/-! Helper lemmas: clamping of the impulse accumulators. -/

theorem abs_min_max_le (x m : ℚ) (hm : 0 ≤ m) :
    |min (max x (-m)) m| ≤ m := by
  rw [abs_le]
  exact ⟨le_min (le_max_right x (-m)) (neg_le_self hm), min_le_right _ _⟩

theorem normalStep_impulse_nonneg (n : Vec2) (ub : Bool) (ms h : ℚ)
    (dt : Vec2) (im1 im2 ii1 ii2 : ℚ) (pt : ContactConstraintPoint)
    (b1 b2 : SolverBody) :
    0 ≤ (normalStep n ub ms h dt im1 im2 ii1 ii2 pt b1 b2).1.normal_part.impulse := by
  simp only [normalStep, ContactNormalPart.solve_impulse]
  exact le_max_right _ _

theorem normalLoop_impulse_nonneg (n : Vec2) (ub : Bool) (ms h : ℚ)
    (dt : Vec2) (im1 im2 ii1 ii2 : ℚ) (ps : List ContactConstraintPoint)
    (b1 b2 : SolverBody) :
    ∀ p ∈ (normalLoop n ub ms h dt im1 im2 ii1 ii2 ps b1 b2).1,
      0 ≤ p.normal_part.impulse := by
  induction ps generalizing b1 b2 with
  | nil => intro p hp; simp [normalLoop] at hp
  | cons pt rest ih =>
    intro p hp
    simp only [normalLoop, List.mem_cons] at hp
    rcases hp with hp | hp
    · subst hp
      exact normalStep_impulse_nonneg n ub ms h dt im1 im2 ii1 ii2 pt b1 b2
    · exact ih _ _ p hp

theorem frictionStep_normal_part (t : Vec2) (ts fr im1 im2 ii1 ii2 : ℚ)
    (pt : ContactConstraintPoint) (b1 b2 : SolverBody) :
    (frictionStep t ts fr im1 im2 ii1 ii2 pt b1 b2).1.normal_part =
      pt.normal_part := by
  cases hpt : pt.tangent_part with
  | none => simp [frictionStep, hpt]
  | some fp => simp [frictionStep, hpt]

theorem frictionLoop_normal_parts (t : Vec2) (ts fr im1 im2 ii1 ii2 : ℚ)
    (ps : List ContactConstraintPoint) (b1 b2 : SolverBody) :
    ((frictionLoop t ts fr im1 im2 ii1 ii2 ps b1 b2).1.map
      fun p => p.normal_part) = ps.map fun p => p.normal_part := by
  induction ps generalizing b1 b2 with
  | nil => rfl
  | cons pt rest ih =>
    simp only [frictionLoop, List.map_cons,
      frictionStep_normal_part t ts fr im1 im2 ii1 ii2 pt b1 b2]
    rw [ih]

theorem frictionStep_cone (t : Vec2) (ts fr im1 im2 ii1 ii2 : ℚ)
    (pt : ContactConstraintPoint) (b1 b2 : SolverBody)
    (hm : 0 ≤ fr * pt.normal_part.impulse) :
    ∀ tp, (frictionStep t ts fr im1 im2 ii1 ii2 pt b1 b2).1.tangent_part =
        some tp →
      |tp.impulse| ≤ fr * pt.normal_part.impulse := by
  intro tp htp
  cases hpt : pt.tangent_part with
  | none =>
    simp [frictionStep, hpt] at htp
  | some fp =>
    simp only [frictionStep, hpt, ContactTangentPart.solve_impulse] at htp
    simp only [Option.some.injEq] at htp
    rw [← htp]
    exact abs_min_max_le _ _ hm

theorem frictionLoop_cone (t : Vec2) (ts fr im1 im2 ii1 ii2 : ℚ)
    (ps : List ContactConstraintPoint) (b1 b2 : SolverBody)
    (hf : 0 ≤ fr) (hin : ∀ p ∈ ps, 0 ≤ p.normal_part.impulse) :
    ∀ p ∈ (frictionLoop t ts fr im1 im2 ii1 ii2 ps b1 b2).1,
      ∀ tp, p.tangent_part = some tp →
        |tp.impulse| ≤ fr * p.normal_part.impulse := by
  induction ps generalizing b1 b2 with
  | nil => intro p hp; simp [frictionLoop] at hp
  | cons pt rest ih =>
    intro p hp tp htp
    simp only [frictionLoop, List.mem_cons] at hp
    rcases hp with hp | hp
    · subst hp
      rw [frictionStep_normal_part t ts fr im1 im2 ii1 ii2 pt b1 b2]
      have hm : 0 ≤ fr * pt.normal_part.impulse :=
        mul_nonneg hf (hin pt (List.mem_cons_self pt rest))
      exact frictionStep_cone t ts fr im1 im2 ii1 ii2 pt b1 b2 hm tp htp
    · exact ih _ _ (fun q hq => hin q (List.mem_cons_of_mem pt hq)) p hp tp htp

theorem restitutionStep_impulse_nonneg (n : Vec2) (re th im1 im2 ii1 ii2 : ℚ)
    (pt : ContactConstraintPoint) (b1 b2 : SolverBody)
    (hin : 0 ≤ pt.normal_part.impulse) :
    0 ≤ (restitutionStep n re th im1 im2 ii1 ii2 pt b1 b2).1.normal_part.impulse := by
  unfold restitutionStep
  split
  · exact hin
  · exact le_max_right _ _

theorem restitutionLoop_impulse_nonneg (n : Vec2) (re th im1 im2 ii1 ii2 : ℚ)
    (ps : List ContactConstraintPoint) (b1 b2 : SolverBody)
    (hin : ∀ p ∈ ps, 0 ≤ p.normal_part.impulse) :
    ∀ p ∈ (restitutionLoop n re th im1 im2 ii1 ii2 ps b1 b2).1,
      0 ≤ p.normal_part.impulse := by
  induction ps generalizing b1 b2 with
  | nil => intro p hp; simp [restitutionLoop] at hp
  | cons pt rest ih =>
    intro p hp
    simp only [restitutionLoop, List.mem_cons] at hp
    rcases hp with hp | hp
    · subst hp
      exact restitutionStep_impulse_nonneg n re th im1 im2 ii1 ii2 pt b1 b2
        (hin pt (List.mem_cons_self pt rest))
    · exact ih _ _ (fun q hq => hin q (List.mem_cons_of_mem pt hq)) p hp

/-! Helper lemmas: equations exposing the loop structure of the top-level
solver operations, and facts about manifold processing. -/

theorem warm_start_eq (c : ContactConstraint) (b1 b2 : SolverBody)
    (i1 i2 : SolverBodyInertia) (n t : Vec2) (w : ℚ) :
    c.warm_start b1 b2 i1 i2 n t w =
      warmStartLoop n t w i1.effective_inv_mass i2.effective_inv_mass
        i1.effective_inv_angular_inertia i2.effective_inv_angular_inertia
        c.points b1 b2 := rfl

theorem solve_eq (c : ContactConstraint) (b1 b2 : SolverBody)
    (i1 i2 : SolverBodyInertia) (h : ℚ) (ub : Bool) (ms : ℚ) :
    c.solve b1 b2 i1 i2 h ub ms =
      (fun r : List ContactConstraintPoint × SolverBody × SolverBody =>
        frictionLoop
          (c.tangent_directions r.2.1.linear_velocity r.2.2.linear_velocity)
          c.tangent_speed c.friction
          i1.effective_inv_mass i2.effective_inv_mass
          i1.effective_inv_angular_inertia i2.effective_inv_angular_inertia
          r.1 r.2.1 r.2.2)
      (normalLoop c.normal ub ms h (b2.delta_position - b1.delta_position)
        i1.effective_inv_mass i2.effective_inv_mass
        i1.effective_inv_angular_inertia i2.effective_inv_angular_inertia
        c.points b1 b2) := rfl

theorem apply_restitution_eq (c : ContactConstraint) (b1 b2 : SolverBody)
    (i1 i2 : SolverBodyInertia) (th : ℚ) :
    c.apply_restitution b1 b2 i1 i2 th =
      restitutionLoop c.normal c.restitution th
        i1.effective_inv_mass i2.effective_inv_mass
        i1.effective_inv_angular_inertia i2.effective_inv_angular_inertia
        c.points b1 b2 := rfl

theorem warmStartLoop_deltas_fst (n t : Vec2) (w im1 im2 ii1 ii2 : ℚ)
    (ps : List ContactConstraintPoint) (b1 b2 : SolverBody) :
    (warmStartLoop n t w im1 im2 ii1 ii2 ps b1 b2).1.deltas = b1.deltas :=
  (warmStartLoop_deltas n t w im1 im2 ii1 ii2 ps b1 b2).1

theorem warmStartLoop_deltas_snd (n t : Vec2) (w im1 im2 ii1 ii2 : ℚ)
    (ps : List ContactConstraintPoint) (b1 b2 : SolverBody) :
    (warmStartLoop n t w im1 im2 ii1 ii2 ps b1 b2).2.deltas = b2.deltas :=
  (warmStartLoop_deltas n t w im1 im2 ii1 ii2 ps b1 b2).2

theorem normalLoop_deltas_fst (n : Vec2) (ub : Bool) (ms h : ℚ) (dt : Vec2)
    (im1 im2 ii1 ii2 : ℚ) (ps : List ContactConstraintPoint)
    (b1 b2 : SolverBody) :
    (normalLoop n ub ms h dt im1 im2 ii1 ii2 ps b1 b2).2.1.deltas = b1.deltas :=
  (normalLoop_deltas n ub ms h dt im1 im2 ii1 ii2 ps b1 b2).1

theorem normalLoop_deltas_snd (n : Vec2) (ub : Bool) (ms h : ℚ) (dt : Vec2)
    (im1 im2 ii1 ii2 : ℚ) (ps : List ContactConstraintPoint)
    (b1 b2 : SolverBody) :
    (normalLoop n ub ms h dt im1 im2 ii1 ii2 ps b1 b2).2.2.deltas = b2.deltas :=
  (normalLoop_deltas n ub ms h dt im1 im2 ii1 ii2 ps b1 b2).2

theorem frictionLoop_deltas_fst (t : Vec2) (ts fr im1 im2 ii1 ii2 : ℚ)
    (ps : List ContactConstraintPoint) (b1 b2 : SolverBody) :
    (frictionLoop t ts fr im1 im2 ii1 ii2 ps b1 b2).2.1.deltas = b1.deltas :=
  (frictionLoop_deltas t ts fr im1 im2 ii1 ii2 ps b1 b2).1

theorem frictionLoop_deltas_snd (t : Vec2) (ts fr im1 im2 ii1 ii2 : ℚ)
    (ps : List ContactConstraintPoint) (b1 b2 : SolverBody) :
    (frictionLoop t ts fr im1 im2 ii1 ii2 ps b1 b2).2.2.deltas = b2.deltas :=
  (frictionLoop_deltas t ts fr im1 im2 ii1 ii2 ps b1 b2).2

theorem restitutionLoop_deltas_fst (n : Vec2) (re th im1 im2 ii1 ii2 : ℚ)
    (ps : List ContactConstraintPoint) (b1 b2 : SolverBody) :
    (restitutionLoop n re th im1 im2 ii1 ii2 ps b1 b2).2.1.deltas = b1.deltas :=
  (restitutionLoop_deltas n re th im1 im2 ii1 ii2 ps b1 b2).1

theorem restitutionLoop_deltas_snd (n : Vec2) (re th im1 im2 ii1 ii2 : ℚ)
    (ps : List ContactConstraintPoint) (b1 b2 : SolverBody) :
    (restitutionLoop n re th im1 im2 ii1 ii2 ps b1 b2).2.2.deltas = b2.deltas :=
  (restitutionLoop_deltas n re th im1 im2 ii1 ii2 ps b1 b2).2

theorem processManifold_eq_some (rot1 : Rot) (nf : Vec2 → Vec2)
    (pm : PManifold) (m : ContactManifold)
    (h : processManifold rot1 nf pm = some m) :
    m.normal.isNormalized ∧ m.points ≠ [] ∧
    m.points = pm.contacts.map fun ct =>
      (⟨(pm.subshape_pos1.getD Iso2.id).transform_point ct.local_p1,
        (pm.subshape_pos2.getD Iso2.id).transform_point ct.local_p2,
        -ct.dist, ct.fid1, ct.fid2⟩ : ContactPoint) := by
  unfold processManifold at h
  split_ifs at h with h1
  dsimp only at h
  split_ifs at h with h2
  rw [Option.some.injEq] at h
  subst h
  refine ⟨h2, ?_, rfl⟩
  simp only [ne_eq, List.map_eq_nil_iff]
  intro hc
  rw [hc] at h1
  exact h1 rfl

theorem contact_manifolds_mem (rot1 : Rot) (nf : Vec2 → Vec2)
    (dr : Except QueryError Unit) (nm : List PManifold) (sm1 sm2 : Bool)
    (smc : Option PContact) :
    ∀ m ∈ contact_manifolds rot1 nf dr nm sm1 sm2 smc,
      m.points ≠ [] ∧ m.normal.isNormalized := by
  intro m hm
  have hext : ∀ m' ∈ nm.filterMap (processManifold rot1 nf),
      m'.points ≠ [] ∧ m'.normal.isNormalized := by
    intro m' hm'
    obtain ⟨pm, _, hpm⟩ := List.mem_filterMap.mp hm'
    obtain ⟨hn, hne, _⟩ := processManifold_eq_some rot1 nf pm m' hpm
    exact ⟨hne, hn⟩
  unfold contact_manifolds at hm
  split_ifs at hm with h1
  · cases smc with
    | none => exact hext m hm
    | some c =>
      dsimp only at hm
      split_ifs at hm with h2
      · rcases List.mem_cons.mp hm with hm | hm
        · subst hm
          exact ⟨by simp, h2⟩
        · exact hext m hm
      · simp at hm
  · exact hext m hm

/-! The claims. -/

/-- Claim C3: every impulse application in warm-starting, the normal and
friction solve passes, and the restitution pass follows the same sign
pattern: for the applied impulse `p`, body1's linear velocity changes by
`-p * inv_mass1` and body2's by `+p * inv_mass2`, while body1's angular
velocity changes by `-inv_angular_inertia1 * cross anchor1 p` and body2's
by `+inv_angular_inertia2 * cross anchor2 p`. -/
theorem avian_C3 :
    (∀ (n t : Vec2) (w im1 im2 ii1 ii2 : ℚ) (pt : ContactConstraintPoint)
      (b1 b2 : SolverBody), ∃ p : Vec2,
      (warmStartStep n t w im1 im2 ii1 ii2 pt b1 b2).1.linear_velocity =
        b1.linear_velocity - im1 • p ∧
      (warmStartStep n t w im1 im2 ii1 ii2 pt b1 b2).1.angular_velocity =
        b1.angular_velocity - ii1 * pt.anchor1.cross p ∧
      (warmStartStep n t w im1 im2 ii1 ii2 pt b1 b2).2.linear_velocity =
        b2.linear_velocity + im2 • p ∧
      (warmStartStep n t w im1 im2 ii1 ii2 pt b1 b2).2.angular_velocity =
        b2.angular_velocity + ii2 * pt.anchor2.cross p) ∧
    (∀ (n : Vec2) (ub : Bool) (ms h : ℚ) (dt : Vec2) (im1 im2 ii1 ii2 : ℚ)
      (pt : ContactConstraintPoint) (b1 b2 : SolverBody), ∃ p : Vec2,
      (normalStep n ub ms h dt im1 im2 ii1 ii2 pt b1 b2).2.1.linear_velocity =
        b1.linear_velocity - im1 • p ∧
      (normalStep n ub ms h dt im1 im2 ii1 ii2 pt b1 b2).2.1.angular_velocity =
        b1.angular_velocity - ii1 * pt.anchor1.cross p ∧
      (normalStep n ub ms h dt im1 im2 ii1 ii2 pt b1 b2).2.2.linear_velocity =
        b2.linear_velocity + im2 • p ∧
      (normalStep n ub ms h dt im1 im2 ii1 ii2 pt b1 b2).2.2.angular_velocity =
        b2.angular_velocity + ii2 * pt.anchor2.cross p) ∧
    (∀ (t : Vec2) (ts fr im1 im2 ii1 ii2 : ℚ) (pt : ContactConstraintPoint)
      (b1 b2 : SolverBody), ∃ p : Vec2,
      (frictionStep t ts fr im1 im2 ii1 ii2 pt b1 b2).2.1.linear_velocity =
        b1.linear_velocity - im1 • p ∧
      (frictionStep t ts fr im1 im2 ii1 ii2 pt b1 b2).2.1.angular_velocity =
        b1.angular_velocity - ii1 * pt.anchor1.cross p ∧
      (frictionStep t ts fr im1 im2 ii1 ii2 pt b1 b2).2.2.linear_velocity =
        b2.linear_velocity + im2 • p ∧
      (frictionStep t ts fr im1 im2 ii1 ii2 pt b1 b2).2.2.angular_velocity =
        b2.angular_velocity + ii2 * pt.anchor2.cross p) ∧
    (∀ (n : Vec2) (re th im1 im2 ii1 ii2 : ℚ) (pt : ContactConstraintPoint)
      (b1 b2 : SolverBody), ∃ p : Vec2,
      (restitutionStep n re th im1 im2 ii1 ii2 pt b1 b2).2.1.linear_velocity =
        b1.linear_velocity - im1 • p ∧
      (restitutionStep n re th im1 im2 ii1 ii2 pt b1 b2).2.1.angular_velocity =
        b1.angular_velocity - ii1 * pt.anchor1.cross p ∧
      (restitutionStep n re th im1 im2 ii1 ii2 pt b1 b2).2.2.linear_velocity =
        b2.linear_velocity + im2 • p ∧
      (restitutionStep n re th im1 im2 ii1 ii2 pt b1 b2).2.2.angular_velocity =
        b2.angular_velocity + ii2 * pt.anchor2.cross p) := by
  refine ⟨?_, ?_, ?_, ?_⟩
  · intro n t w im1 im2 ii1 ii2 pt b1 b2
    exact ⟨_, rfl, rfl, rfl, rfl⟩
  · intro n ub ms h dt im1 im2 ii1 ii2 pt b1 b2
    exact ⟨_, rfl, rfl, rfl, rfl⟩
  · intro t ts fr im1 im2 ii1 ii2 pt b1 b2
    cases hpt : pt.tangent_part with
    | none =>
      refine ⟨0, ?_, ?_, ?_, ?_⟩ <;> simp [frictionStep, hpt, Vec2.cross]
    | some fp =>
      simp only [frictionStep, hpt]
      exact ⟨_, rfl, rfl, rfl, rfl⟩
  · intro n re th im1 im2 ii1 ii2 pt b1 b2
    unfold restitutionStep
    split
    · refine ⟨0, ?_, ?_, ?_, ?_⟩ <;> simp [Vec2.cross]
    · exact ⟨_, rfl, rfl, rfl, rfl⟩

/-- Claim C4: a body whose effective inverse mass and effective inverse
angular inertia are both zero (an infinite-mass, fully dominant body) is
left exactly unchanged by `warm_start`, `solve` and `apply_restitution`,
purely by the arithmetic, with no dominance branch in the loops. -/
theorem avian_C4 :
    (∀ (c : ContactConstraint) (b1 b2 : SolverBody) (i1 i2 : SolverBodyInertia)
      (n t : Vec2) (w h th : ℚ) (ub : Bool) (ms : ℚ),
      i1.effective_inv_mass = 0 → i1.effective_inv_angular_inertia = 0 →
      (c.warm_start b1 b2 i1 i2 n t w).1 = b1 ∧
      (c.solve b1 b2 i1 i2 h ub ms).2.1 = b1 ∧
      (c.apply_restitution b1 b2 i1 i2 th).2.1 = b1) ∧
    (∀ (c : ContactConstraint) (b1 b2 : SolverBody) (i1 i2 : SolverBodyInertia)
      (n t : Vec2) (w h th : ℚ) (ub : Bool) (ms : ℚ),
      i2.effective_inv_mass = 0 → i2.effective_inv_angular_inertia = 0 →
      (c.warm_start b1 b2 i1 i2 n t w).2 = b2 ∧
      (c.solve b1 b2 i1 i2 h ub ms).2.2 = b2 ∧
      (c.apply_restitution b1 b2 i1 i2 th).2.2 = b2) := by
  constructor
  · intro c b1 b2 i1 i2 n t w h th ub ms hm hi
    refine ⟨?_, ?_, ?_⟩
    · simp only [warm_start_eq, hm, hi, warmStartLoop_fst_zero]
    · simp only [solve_eq, hm, hi, frictionLoop_body1_zero,
        normalLoop_body1_zero]
    · simp only [apply_restitution_eq, hm, hi, restitutionLoop_body1_zero]
  · intro c b1 b2 i1 i2 n t w h th ub ms hm hi
    refine ⟨?_, ?_, ?_⟩
    · simp only [warm_start_eq, hm, hi, warmStartLoop_snd_zero]
    · simp only [solve_eq, hm, hi, frictionLoop_body2_zero,
        normalLoop_body2_zero]
    · simp only [apply_restitution_eq, hm, hi, restitutionLoop_body2_zero]

/-- Claim C4 witness: a concrete infinite-mass body is unchanged by all
three operations. -/
theorem avian_C4_witness :
    exInertiaZero.effective_inv_mass = 0 ∧
    exInertiaZero.effective_inv_angular_inertia = 0 ∧
    (exConstraintFriction.warm_start exBodyRest exBodyRest exInertiaZero
      exInertiaUnit ⟨0, 1⟩ ⟨1, 0⟩ 1).1 = exBodyRest ∧
    (exConstraintFriction.solve exBodyRest exBodyRest exInertiaZero
      exInertiaUnit 1 true 4).2.1 = exBodyRest ∧
    (exConstraintFriction.apply_restitution exBodyRest exBodyRest
      exInertiaZero exInertiaUnit 1).2.1 = exBodyRest := by
  have h := avian_C4.1 exConstraintFriction exBodyRest exBodyRest
    exInertiaZero exInertiaUnit ⟨0, 1⟩ ⟨1, 0⟩ 1 1 1 true 4
    (by norm_num [exInertiaZero, SolverBodyInertia.effective_inv_mass])
    (by norm_num [exInertiaZero,
      SolverBodyInertia.effective_inv_angular_inertia])
  refine ⟨?_, ?_, h.1, h.2.1, h.2.2⟩
  · norm_num [exInertiaZero, SolverBodyInertia.effective_inv_mass]
  · norm_num [exInertiaZero, SolverBodyInertia.effective_inv_angular_inertia]

/-- Claim C10: `warm_start`, `solve` and `apply_restitution` never write
either body's accumulated `delta_position` or `delta_rotation`; only the
velocities (and the constraint points) are mutated. -/
theorem avian_C10 (c : ContactConstraint) (b1 b2 : SolverBody)
    (i1 i2 : SolverBodyInertia) (n t : Vec2) (w h th : ℚ) (ub : Bool)
    (ms : ℚ) :
    ((c.warm_start b1 b2 i1 i2 n t w).1.deltas = b1.deltas ∧
     (c.warm_start b1 b2 i1 i2 n t w).2.deltas = b2.deltas) ∧
    ((c.solve b1 b2 i1 i2 h ub ms).2.1.deltas = b1.deltas ∧
     (c.solve b1 b2 i1 i2 h ub ms).2.2.deltas = b2.deltas) ∧
    ((c.apply_restitution b1 b2 i1 i2 th).2.1.deltas = b1.deltas ∧
     (c.apply_restitution b1 b2 i1 i2 th).2.2.deltas = b2.deltas) := by
  refine ⟨⟨?_, ?_⟩, ⟨?_, ?_⟩, ?_, ?_⟩
  · simp only [warm_start_eq, warmStartLoop_deltas_fst]
  · simp only [warm_start_eq, warmStartLoop_deltas_snd]
  · simp only [solve_eq, frictionLoop_deltas_fst, normalLoop_deltas_fst]
  · simp only [solve_eq, frictionLoop_deltas_snd, normalLoop_deltas_snd]
  · simp only [apply_restitution_eq, restitutionLoop_deltas_fst]
  · simp only [apply_restitution_eq, restitutionLoop_deltas_snd]

/-- Claim C1: in `solve`, all normal impulses are solved and applied before
any friction impulse (projected Gauss-Seidel ordering); the friction pass
leaves every point's normal part exactly as the normal pass of this same
call produced it, so the friction-cone bound uses the current call's solved
normal impulse; the accumulated normal impulses are non-negative and every
solved tangent impulse magnitude is bounded by `friction` times that same
point's current normal impulse. -/
theorem avian_C1 (c : ContactConstraint) (b1 b2 : SolverBody)
    (i1 i2 : SolverBodyInertia) (h : ℚ) (ub : Bool) (ms : ℚ)
    (hf : 0 ≤ c.friction) :
    ((c.solve b1 b2 i1 i2 h ub ms).1.map fun p => p.normal_part) =
      ((normalLoop c.normal ub ms h (b2.delta_position - b1.delta_position)
          i1.effective_inv_mass i2.effective_inv_mass
          i1.effective_inv_angular_inertia i2.effective_inv_angular_inertia
          c.points b1 b2).1.map fun p => p.normal_part) ∧
    (∀ p ∈ (c.solve b1 b2 i1 i2 h ub ms).1, 0 ≤ p.normal_part.impulse) ∧
    (∀ p ∈ (c.solve b1 b2 i1 i2 h ub ms).1, ∀ tp,
      p.tangent_part = some tp →
      |tp.impulse| ≤ c.friction * p.normal_part.impulse) := by
  simp only [solve_eq]
  refine ⟨frictionLoop_normal_parts _ _ _ _ _ _ _ _ _ _, ?_, ?_⟩
  · intro p hp
    have hmem := List.mem_map_of_mem (fun q => q.normal_part) hp
    rw [frictionLoop_normal_parts] at hmem
    obtain ⟨q, hq, hqe⟩ := List.mem_map.mp hmem
    simp only at hqe
    rw [← hqe]
    exact normalLoop_impulse_nonneg c.normal ub ms h
      (b2.delta_position - b1.delta_position)
      i1.effective_inv_mass i2.effective_inv_mass
      i1.effective_inv_angular_inertia i2.effective_inv_angular_inertia
      c.points b1 b2 q hq
  · intro p hp tp htp
    exact frictionLoop_cone _ _ _ _ _ _ _ _ _ _ hf
      (normalLoop_impulse_nonneg c.normal ub ms h
        (b2.delta_position - b1.delta_position)
        i1.effective_inv_mass i2.effective_inv_mass
        i1.effective_inv_angular_inertia i2.effective_inv_angular_inertia
        c.points b1 b2) p hp tp htp

/-- Claim C1 witness: the cone bound at a concrete one-point constraint
with friction coefficient `1/2`. -/
theorem avian_C1_witness :
    (0 : ℚ) ≤ exConstraintFriction.friction ∧
    (∀ p ∈ (exConstraintFriction.solve exBodyRest exBodyRest exInertiaUnit
        exInertiaUnit 1 true 4).1, ∀ tp, p.tangent_part = some tp →
      |tp.impulse| ≤ exConstraintFriction.friction * p.normal_part.impulse) :=
  ⟨by norm_num [exConstraintFriction],
    (avian_C1 exConstraintFriction exBodyRest exBodyRest
      exInertiaUnit exInertiaUnit 1 true 4
      (by norm_num [exConstraintFriction])).2.2⟩

/-- Claim C2 (amended): for a one-point constraint, the restitution pass
changes the bodies' velocities only if the point's pre-solve normal speed
is at least the threshold in magnitude (`normal_speed <= -threshold`,
inclusive at the boundary) and the accumulated total normal impulse is
non-zero; a point failing either condition leaves both bodies exactly
unchanged. -/
theorem avian_C2 (rd : ℤ) (fr re ts th : ℚ) (n : Vec2)
    (pt : ContactConstraintPoint) (b1 b2 : SolverBody)
    (i1 i2 : SolverBodyInertia) :
    ((pt.normal_speed > -th ∨ pt.normal_part.total_impulse = 0) →
      ((⟨rd, fr, re, ts, n, [pt]⟩ : ContactConstraint).apply_restitution
          b1 b2 i1 i2 th).2.1 = b1 ∧
      ((⟨rd, fr, re, ts, n, [pt]⟩ : ContactConstraint).apply_restitution
          b1 b2 i1 i2 th).2.2 = b2) ∧
    ((((⟨rd, fr, re, ts, n, [pt]⟩ : ContactConstraint).apply_restitution
          b1 b2 i1 i2 th).2.1 ≠ b1 ∨
      ((⟨rd, fr, re, ts, n, [pt]⟩ : ContactConstraint).apply_restitution
          b1 b2 i1 i2 th).2.2 ≠ b2) →
      pt.normal_speed ≤ -th ∧ pt.normal_part.total_impulse ≠ 0) := by
  have hpart1 : (pt.normal_speed > -th ∨ pt.normal_part.total_impulse = 0) →
      ((⟨rd, fr, re, ts, n, [pt]⟩ : ContactConstraint).apply_restitution
          b1 b2 i1 i2 th).2.1 = b1 ∧
      ((⟨rd, fr, re, ts, n, [pt]⟩ : ContactConstraint).apply_restitution
          b1 b2 i1 i2 th).2.2 = b2 := by
    intro hskip
    rw [apply_restitution_eq]
    refine ⟨?_, ?_⟩ <;> simp [restitutionLoop, restitutionStep, if_pos hskip]
  refine ⟨hpart1, fun hne => ?_⟩
  by_cases hskip : pt.normal_speed > -th ∨ pt.normal_part.total_impulse = 0
  · rcases hne with hne | hne
    · exact absurd (hpart1 hskip).1 hne
    · exact absurd (hpart1 hskip).2 hne
  · push_neg at hskip
    exact hskip

/-- Claim C2 witness: a point with zero total impulse produces no velocity
change in the restitution pass. -/
theorem avian_C2_witness :
    (exPointFriction.normal_speed > -(1 : ℚ) ∨
      exPointFriction.normal_part.total_impulse = 0) ∧
    ((⟨0, 1/2, 0, 0, ⟨0, 1⟩, [exPointFriction]⟩ :
        ContactConstraint).apply_restitution exBodyRest exBodyRest
      exInertiaUnit exInertiaUnit 1).2.1 = exBodyRest :=
  ⟨by norm_num [exPointFriction],
    ((avian_C2 0 (1/2) 0 0 1 ⟨0, 1⟩ exPointFriction exBodyRest
      exBodyRest exInertiaUnit exInertiaUnit).1
      (by norm_num [exPointFriction])).1⟩

/-- Claim C2 counterexample: at a point whose pre-solve normal speed equals
the threshold exactly in magnitude (so it does not *exceed* it), with a
non-zero total impulse, the restitution pass does change body2's linear
velocity: the original claim's strict only-if condition fails at the
boundary. -/
theorem avian_C2_counterexample :
    ((exConstraintRestitution.apply_restitution exBodyRest exBodyRest
        exInertiaUnit exInertiaUnit 1).2.2.linear_velocity ≠
      exBodyRest.linear_velocity) ∧
    ¬ (|exPointThreshold.normal_speed| > (1 : ℚ)) ∧
    exPointThreshold.normal_speed ≤ -(1 : ℚ) ∧
    exPointThreshold.normal_part.total_impulse ≠ 0 := by
  norm_num [ContactConstraint.apply_restitution, restitutionLoop,
    restitutionStep, exConstraintRestitution, exPointThreshold, exBodyRest,
    exInertiaUnit, SolverBodyInertia.effective_inv_mass,
    SolverBodyInertia.effective_inv_angular_inertia,
    SolverBody.velocity_at_point, Vec2.dot, Vec2.cross, Vec2.perp,
    Rot.id, max_def]
  simp

/-- Claim C9: the restitution pass keeps every accumulated normal impulse
non-negative, and the velocity change it applies corresponds exactly to the
clamped increment (the new accumulated impulse minus the old one), not to
the unclamped impulse. -/
theorem avian_C9 :
    (∀ (c : ContactConstraint) (b1 b2 : SolverBody) (i1 i2 : SolverBodyInertia)
      (th : ℚ), (∀ p ∈ c.points, 0 ≤ p.normal_part.impulse) →
      ∀ p ∈ (c.apply_restitution b1 b2 i1 i2 th).1,
        0 ≤ p.normal_part.impulse) ∧
    (∀ (n : Vec2) (re th im1 im2 ii1 ii2 : ℚ) (pt : ContactConstraintPoint)
      (b1 b2 : SolverBody),
      (restitutionStep n re th im1 im2 ii1 ii2 pt b1 b2).2.1.linear_velocity =
        b1.linear_velocity - im1 •
          (((restitutionStep n re th im1 im2 ii1 ii2 pt b1 b2).1.normal_part.impulse -
            pt.normal_part.impulse) • n) ∧
      (restitutionStep n re th im1 im2 ii1 ii2 pt b1 b2).2.1.angular_velocity =
        b1.angular_velocity - ii1 * pt.anchor1.cross
          (((restitutionStep n re th im1 im2 ii1 ii2 pt b1 b2).1.normal_part.impulse -
            pt.normal_part.impulse) • n) ∧
      (restitutionStep n re th im1 im2 ii1 ii2 pt b1 b2).2.2.linear_velocity =
        b2.linear_velocity + im2 •
          (((restitutionStep n re th im1 im2 ii1 ii2 pt b1 b2).1.normal_part.impulse -
            pt.normal_part.impulse) • n) ∧
      (restitutionStep n re th im1 im2 ii1 ii2 pt b1 b2).2.2.angular_velocity =
        b2.angular_velocity + ii2 * pt.anchor2.cross
          (((restitutionStep n re th im1 im2 ii1 ii2 pt b1 b2).1.normal_part.impulse -
            pt.normal_part.impulse) • n)) := by
  constructor
  · intro c b1 b2 i1 i2 th hin
    rw [apply_restitution_eq]
    exact restitutionLoop_impulse_nonneg _ _ _ _ _ _ _ _ _ _ hin
  · intro n re th im1 im2 ii1 ii2 pt b1 b2
    unfold restitutionStep
    split
    · refine ⟨?_, ?_, ?_, ?_⟩ <;> simp [Vec2.cross]
    · exact ⟨rfl, rfl, rfl, rfl⟩

/-- Claim C9 witness: non-negativity of the accumulated normal impulses at
a concrete restitution-pass input. -/
theorem avian_C9_witness :
    (∀ p ∈ exConstraintRestitution.points, 0 ≤ p.normal_part.impulse) ∧
    (∀ p ∈ (exConstraintRestitution.apply_restitution exBodyRest exBodyRest
        exInertiaUnit exInertiaUnit 1).1, 0 ≤ p.normal_part.impulse) := by
  have hin : ∀ p ∈ exConstraintRestitution.points,
      0 ≤ p.normal_part.impulse := by
    intro p hp
    simp only [exConstraintRestitution, List.mem_singleton] at hp
    subst hp
    norm_num [exPointThreshold]
  exact ⟨hin, avian_C9.1 exConstraintRestitution exBodyRest exBodyRest
    exInertiaUnit exInertiaUnit 1 hin⟩

/-- Claim C5: when the underlying query succeeds but a contact normal fails
the unit-length check after being transformed into the body's local frame,
`contact` returns `Ok(None)` (no contact, not an error), and
`contact_manifolds` omits the offending manifold; consequently every
retained manifold normal is unit-length. -/
theorem avian_C5 :
    (∀ (rot1 rot2 : Rot) (nf : Vec2 → Vec2) (pc : PContact),
      (¬ (nf (rot1.inverse.apply pc.normal1)).isNormalized ∨
       ¬ (nf (rot2.inverse.apply pc.normal2)).isNormalized) →
      contact rot1 rot2 nf (Except.ok (some pc)) = Except.ok none) ∧
    (∀ (rot1 : Rot) (nf : Vec2 → Vec2) (pm : PManifold),
      ¬ (rot1.apply (nf ((pm.subshape_pos1.getD Iso2.id).rotation.apply
          pm.local_n1))).isNormalized →
      processManifold rot1 nf pm = none) ∧
    (∀ (rot1 : Rot) (nf : Vec2 → Vec2) (dr : Except QueryError Unit)
      (nm : List PManifold) (sm1 sm2 : Bool) (smc : Option PContact),
      ∀ m ∈ contact_manifolds rot1 nf dr nm sm1 sm2 smc,
        m.normal.isNormalized) := by
  refine ⟨?_, ?_, ?_⟩
  · intro rot1 rot2 nf pc hbad
    simp only [contact, Except.map]
    rw [if_pos hbad]
  · intro rot1 nf pm hbad
    unfold processManifold
    split_ifs with h1
    · rfl
    · dsimp only
      rw [if_pos hbad]
  · intro rot1 nf dr nm sm1 sm2 smc m hm
    exact (contact_manifolds_mem rot1 nf dr nm sm1 sm2 smc m hm).2

/-- Claim C5 witness: a degenerate (zero) normal yields `Ok(None)` from
`contact` and an omitted manifold from the manifold processing. -/
theorem avian_C5_witness :
    (¬ (id ((Rot.id).inverse.apply exPContactDegenerate.normal1)).isNormalized ∨
     ¬ (id ((Rot.id).inverse.apply exPContactDegenerate.normal2)).isNormalized) ∧
    contact Rot.id Rot.id id (Except.ok (some exPContactDegenerate)) =
      Except.ok none ∧
    processManifold Rot.id id exPManifoldDegenerate = none := by
  have hb : ¬ (id ((Rot.id).inverse.apply
      exPContactDegenerate.normal1)).isNormalized := by
    norm_num [exPContactDegenerate, Rot.id, Rot.inverse, Rot.apply,
      Vec2.isNormalized, Vec2.normSq]
  have hb2 : ¬ (Rot.id.apply (id
      ((exPManifoldDegenerate.subshape_pos1.getD Iso2.id).rotation.apply
        exPManifoldDegenerate.local_n1))).isNormalized := by
    norm_num [exPManifoldDegenerate, Iso2.id, Rot.id, Rot.apply,
      Vec2.isNormalized, Vec2.normSq]
  exact ⟨Or.inl hb, avian_C5.1 Rot.id Rot.id id exPContactDegenerate
    (Or.inl hb), avian_C5.2.1 Rot.id id exPManifoldDegenerate hb2⟩

/-- Claim C6: when the exact dispatcher fails with an unsupported-shape
error, both shapes expose support maps, and the support-map query finds a
contact whose rotated normal is valid, `contact_manifolds` pushes exactly
one single-point fallback manifold (storing `-dist` as the penetration) in
front of the processed dispatcher manifolds, and the output is non-empty. -/
theorem avian_C6 (rot1 : Rot) (nf : Vec2 → Vec2) (nm : List PManifold)
    (c : PContact) (hn : (rot1.apply c.normal1).isNormalized) :
    contact_manifolds rot1 nf (Except.error ()) nm true true (some c) =
      (⟨[⟨c.point1, c.point2, -c.dist, 0, 0⟩], rot1.apply c.normal1⟩ :
        ContactManifold) :: nm.filterMap (processManifold rot1 nf) ∧
    contact_manifolds rot1 nf (Except.error ()) nm true true (some c) ≠ [] := by
  have he : contact_manifolds rot1 nf (Except.error ()) nm true true (some c) =
      (⟨[⟨c.point1, c.point2, -c.dist, 0, 0⟩], rot1.apply c.normal1⟩ :
        ContactManifold) :: nm.filterMap (processManifold rot1 nf) := by
    unfold contact_manifolds
    rw [if_pos ⟨rfl, rfl, rfl⟩]
    show (if ¬ (rot1.apply c.normal1).isNormalized
        then ([] : List ContactManifold)
        else (⟨[⟨c.point1, c.point2, -c.dist, 0, 0⟩],
          rot1.apply c.normal1⟩ : ContactManifold) ::
          nm.filterMap (processManifold rot1 nf)) =
      (⟨[⟨c.point1, c.point2, -c.dist, 0, 0⟩],
        rot1.apply c.normal1⟩ : ContactManifold) ::
        nm.filterMap (processManifold rot1 nf)
    rw [if_neg (not_not_intro hn)]
  exact ⟨he, by rw [he]; exact List.cons_ne_nil _ _⟩

/-- Claim C6 witness: a concrete fallback contact produces exactly one
single-point manifold. -/
theorem avian_C6_witness :
    (Rot.id.apply exPContactUnit.normal1).isNormalized ∧
    contact_manifolds Rot.id id (Except.error ()) [] true true
        (some exPContactUnit) =
      [⟨[⟨exPContactUnit.point1, exPContactUnit.point2, -exPContactUnit.dist,
          0, 0⟩], Rot.id.apply exPContactUnit.normal1⟩] := by
  have hn : (Rot.id.apply exPContactUnit.normal1).isNormalized := by
    norm_num [Rot.id, Rot.apply, exPContactUnit, Vec2.isNormalized,
      Vec2.normSq]
  have h := (avian_C6 Rot.id id [] exPContactUnit hn).1
  exact ⟨hn, by rw [h, List.filterMap_nil]⟩

/-- Claim C7: a successful `contact` query returns the query's points
rotated into each body's local frame, the normals likewise (renormalization
fixes an already-unit normal), and the penetration stored as the negated
signed distance; each manifold point stores `-dist` as its penetration with
the points transformed by the sub-shape poses. -/
theorem avian_C7 :
    (∀ (rot1 rot2 : Rot) (nf : Vec2 → Vec2) (pc : PContact),
      (∀ v : Vec2, v.isNormalized → nf v = v) →
      (rot1.inverse.apply pc.normal1).isNormalized →
      (rot2.inverse.apply pc.normal2).isNormalized →
      contact rot1 rot2 nf (Except.ok (some pc)) = Except.ok (some
        ⟨rot1.inverse.apply pc.point1, rot2.inverse.apply pc.point2,
         rot1.inverse.apply pc.normal1, rot2.inverse.apply pc.normal2,
         -pc.dist⟩)) ∧
    (∀ (rot1 : Rot) (nf : Vec2 → Vec2) (pm : PManifold) (m : ContactManifold),
      processManifold rot1 nf pm = some m →
      m.points = pm.contacts.map fun ct =>
        (⟨(pm.subshape_pos1.getD Iso2.id).transform_point ct.local_p1,
          (pm.subshape_pos2.getD Iso2.id).transform_point ct.local_p2,
          -ct.dist, ct.fid1, ct.fid2⟩ : ContactPoint)) := by
  constructor
  · intro rot1 rot2 nf pc hnf h1 h2
    have e1 := hnf _ h1
    have e2 := hnf _ h2
    simp only [contact, Except.map]
    rw [e1, e2, if_neg]
    rw [not_or, not_not, not_not]
    exact ⟨h1, h2⟩
  · intro rot1 nf pm m h
    exact (processManifold_eq_some rot1 nf pm m h).2.2

/-- Claim C7 witness: a concrete successful contact with unit normals. -/
theorem avian_C7_witness :
    ((Rot.id).inverse.apply exPContactUnit.normal1).isNormalized ∧
    ((Rot.id).inverse.apply exPContactUnit.normal2).isNormalized ∧
    contact Rot.id Rot.id id (Except.ok (some exPContactUnit)) =
      Except.ok (some ⟨(Rot.id).inverse.apply exPContactUnit.point1,
        (Rot.id).inverse.apply exPContactUnit.point2,
        (Rot.id).inverse.apply exPContactUnit.normal1,
        (Rot.id).inverse.apply exPContactUnit.normal2,
        -exPContactUnit.dist⟩) := by
  have h1 : ((Rot.id).inverse.apply exPContactUnit.normal1).isNormalized := by
    norm_num [Rot.id, Rot.inverse, Rot.apply, exPContactUnit,
      Vec2.isNormalized, Vec2.normSq]
  have h2 : ((Rot.id).inverse.apply exPContactUnit.normal2).isNormalized := by
    norm_num [Rot.id, Rot.inverse, Rot.apply, exPContactUnit,
      Vec2.isNormalized, Vec2.normSq]
  exact ⟨h1, h2, avian_C7.1 Rot.id Rot.id id exPContactUnit
    (fun v _ => rfl) h1 h2⟩

/-- Claim C8: every manifold present in the output of `contact_manifolds`
contains at least one contact point; empty manifolds are filtered out. -/
theorem avian_C8 (rot1 : Rot) (nf : Vec2 → Vec2) (dr : Except QueryError Unit)
    (nm : List PManifold) (sm1 sm2 : Bool) (smc : Option PContact) :
    ∀ m ∈ contact_manifolds rot1 nf dr nm sm1 sm2 smc, m.points ≠ [] :=
  fun m hm => (contact_manifolds_mem rot1 nf dr nm sm1 sm2 smc m hm).1

/-- Claim C8 witness: a concrete retained manifold has a contact point. -/
theorem avian_C8_witness :
    exManifoldOut ∈ contact_manifolds Rot.id id (Except.ok ()) [exPManifold]
      false false none ∧
    exManifoldOut.points ≠ [] := by
  have hpm : processManifold Rot.id id exPManifold = some exManifoldOut := by
    norm_num [processManifold, exPManifold, exManifoldOut, Iso2.id, Rot.id,
      Rot.apply, Iso2.transform_point, Vec2.isNormalized, Vec2.normSq]
  have hmem : exManifoldOut ∈ contact_manifolds Rot.id id (Except.ok ())
      [exPManifold] false false none := by
    simp [contact_manifolds, hpm, List.filterMap_cons]
  exact ⟨hmem, avian_C8 Rot.id id (Except.ok ()) [exPManifold] false false
    none exManifoldOut hmem⟩

end Avian
